import Mathlib

/-!
Shallow embedding of the metamodel-evolution pipeline of
`src/Model/MetamodelEvolutionManager.js` together with the Metamodel Store
operations of `src/Model/MetamodelLoader.js`.

Modelling conventions:
* JavaScript values that may be `undefined` are modelled as `Option`;
  JavaScript truthiness tests (`!x`, `x || d`) are modelled by the helpers
  `strFalsy`, `orStr`, `orInt`, `orBool`, `orList` below (empty string and the
  number 0 are falsy, an array is always truthy).
* The Store is the classifier list of the root package.  A reference stores the
  *name* of its target class (the JS code stores the live class object but
  only ever reads its name through `getClassReferences`); this is equivalent
  for every operation considered here, none of which renames a class that is
  the target of a reference.
* Object identity between the ledger (`evolutionOperations`) and the two
  derived views (`ambiguities`, `pendingChanges`) is modelled by letting the
  views hold *indices* into the ledger list.
* A thrown JS exception is modelled by `Option String` error results;
  the `modify*` apply procedures can mutate part of the store before
  throwing, so every apply procedure returns the store as mutated so far
  together with the optional error message.
-/

/-- Emptiness test on a JS string that may be `undefined`:
`!s` is true for `undefined` and for the empty string. -/
def strFalsy : Option String → Bool
  | none => true
  | some s => s == ""

/-- JS truthiness of a possibly-undefined string. -/
def strTruthy (s : Option String) : Bool := !(strFalsy s)

/-- `v || d` for a possibly-undefined JS string. -/
def orStr (v : Option String) (d : String) : String :=
  match v with
  | none => d
  | some s => if s == "" then d else s

/-- `v || d` for a possibly-undefined JS number (0 is falsy). -/
def orInt (v : Option Int) (d : Int) : Int :=
  match v with
  | none => d
  | some n => if n == 0 then d else n

/-- `v || d` for a possibly-undefined JS boolean. -/
def orBool (v : Option Bool) (d : Bool) : Bool :=
  match v with
  | none => d
  | some b => b || d

/-- `v || d` for a possibly-undefined JS array (an array is always truthy,
even the empty one). -/
def orList (v : Option (List String)) (d : List String) : List String :=
  match v with
  | none => d
  | some l => l

/-- A structural feature of a class: an `EAttribute` or an `EReference`
(the JS `eStructuralFeatures` list mixes both kinds in one ordered list).
For a reference, `typeName` is the name of the target class. -/
inductive Feature where
  | attr (name typeName : String) (lowerBound upperBound : Int)
  | ref (name typeName : String) (containment : Bool) (lowerBound upperBound : Int)
deriving DecidableEq, Repr

/-- An `EClass` of the root package. -/
structure EClass where
  name : String
  abstract : Bool := false
  interfaceFlag : Bool := false
  superTypes : List String := []
  features : List Feature := []
deriving DecidableEq, Repr

/-- The Metamodel Store: the classifier list of the root package (the manager is
only used after `loadMetamodel`, so the root package is always present). -/
structure Store where
  classes : List EClass
deriving DecidableEq, Repr

/-- Attribute view returned by `MetamodelLoader.getClassAttributes`. -/
structure AttrInfo where
  name : String
  typeName : String
  lowerBound : Int
  upperBound : Int
deriving DecidableEq, Repr

/-- Reference view returned by `MetamodelLoader.getClassReferences`. -/
structure RefInfo where
  name : String
  typeName : String
  containment : Bool
  lowerBound : Int
  upperBound : Int
deriving DecidableEq, Repr

/-- `MetamodelLoader.findClassByName`: first classifier with the given name. -/
def findClassByName (st : Store) (className : String) : Option EClass :=
  st.classes.find? (fun c => c.name == className)

/-- `MetamodelLoader.getAllClasses`. -/
def getAllClasses (st : Store) : List EClass := st.classes

/-- `MetamodelLoader.getClassAttributes` on a class object. -/
def getClassAttributes (c : EClass) : List AttrInfo :=
  c.features.filterMap fun f =>
    match f with
    | Feature.attr n t lb ub => some ⟨n, t, lb, ub⟩
    | Feature.ref _ _ _ _ _ => none

/-- `MetamodelLoader.getClassReferences` on a class object. -/
def getClassReferences (c : EClass) : List RefInfo :=
  c.features.filterMap fun f =>
    match f with
    | Feature.attr _ _ _ _ => none
    | Feature.ref n t ct lb ub => some ⟨n, t, ct, lb, ub⟩

/-- `MetamodelLoader.getClassAttributes` when called with a class *name*:
returns `[]` when the class is not found. -/
def getClassAttributesByName (st : Store) (className : String) : List AttrInfo :=
  match findClassByName st className with
  | none => []
  | some c => getClassAttributes c

/-- `MetamodelLoader.getClassReferences` when called with a class *name*. -/
def getClassReferencesByName (st : Store) (className : String) : List RefInfo :=
  match findClassByName st className with
  | none => []
  | some c => getClassReferences c

/-- The built-in datatype table of the ecore library, consulted by
`Ecore[typeName]` in `MetamodelLoader.addAttribute`. -/
def ecoreBuiltinTypes : List String :=
  ["EString", "EInt", "EBoolean", "EDouble", "EFloat", "ELong",
   "EShort", "EDate", "EChar", "EByte"]

def ecoreHasType (t : String) : Bool := ecoreBuiltinTypes.contains t

/-- The `details` payload of a change descriptor (stringly-keyed JS object;
every key may be absent). -/
structure Details where
  name : Option String := none
  className : Option String := none
  typeName : Option String := none
  lowerBound : Option Int := none
  upperBound : Option Int := none
  sourceClassName : Option String := none
  targetClassName : Option String := none
  containment : Option Bool := none
  superTypes : Option (List String) := none
  abstract : Option Bool := none
  interfaceFlag : Option Bool := none
  newName : Option String := none
  newType : Option String := none
  newSuperTypes : Option (List String) := none
  newAbstract : Option Bool := none
  newInterfaceFlag : Option Bool := none
  newTargetClassName : Option String := none
  newContainment : Option Bool := none
  newLowerBound : Option Int := none
  newUpperBound : Option Int := none
deriving DecidableEq, Repr

/-- A model-level change descriptor. -/
structure ModelChange where
  type : String
  element : String
  details : Details
deriving DecidableEq, Repr

/-- The kind-specific mutation intent (`operation.metamodelOperation` in the
JS source).  The nine builders each populate the fields relevant to their
action; unused fields stay `none` (absent keys of the JS object). -/
structure MetaOp where
  action : String
  className : Option String := none
  superTypes : Option (List String) := none
  abstract : Option Bool := none
  interfaceFlag : Option Bool := none
  attributeName : Option String := none
  attributeType : Option String := none
  sourceClassName : Option String := none
  targetClassName : Option String := none
  referenceName : Option String := none
  containment : Option Bool := none
  lowerBound : Option Int := none
  upperBound : Option Int := none
  newName : Option String := none
  newType : Option String := none
  newSuperTypes : Option (List String) := none
  newAbstract : Option Bool := none
  newInterfaceFlag : Option Bool := none
  newTargetClassName : Option String := none
  newContainment : Option Bool := none
  newLowerBound : Option Int := none
  newUpperBound : Option Int := none
  ambiguous : Bool := false
  ambiguityReason : Option String := none
deriving DecidableEq, Repr

/-- An Evolution Operation, the unit of record of the ledger. -/
structure Operation where
  type : String
  element : String
  details : Details
  status : String
  ambiguous : Bool
  ambiguityReason : Option String
  metamodelOperation : Option MetaOp
  error : Option String := none
deriving DecidableEq, Repr

/-- Manager state: the Store plus the ledger and its two derived views.
`ambiguities` and `pendingChanges` hold indices into `evolutionOperations`
(modelling the JS object identity shared between the three arrays). -/
structure Manager where
  store : Store
  evolutionOperations : List Operation := []
  ambiguities : List Nat := []
  pendingChanges : List Nat := []
deriving DecidableEq, Repr

/-- `_createAddClassOperation`. -/
def createAddClassOperation (st : Store) (details : Details) : MetaOp :=
  let base : MetaOp :=
    { action := "addClass",
      className := details.name,
      superTypes := some (orList details.superTypes []),
      abstract := some (orBool details.abstract false),
      interfaceFlag := some (orBool details.interfaceFlag false) }
  if strFalsy details.name then
    { base with ambiguous := true, ambiguityReason := some "Class name is required" }
  else if (findClassByName st (details.name.getD "")).isSome then
    let n := details.name.getD ""
    { base with ambiguous := true, ambiguityReason := some s!"Class {n} already exists" }
  else base

/-- `_createAddAttributeOperation`. -/
def createAddAttributeOperation (st : Store) (details : Details) : MetaOp :=
  let base : MetaOp :=
    { action := "addAttribute",
      className := details.className,
      attributeName := details.name,
      attributeType := some (orStr details.typeName "EString"),
      lowerBound := some (orInt details.lowerBound 0),
      upperBound := some (orInt details.upperBound 1) }
  if strFalsy details.className then
    { base with ambiguous := true, ambiguityReason := some "Class name is required" }
  else if strFalsy details.name then
    { base with ambiguous := true, ambiguityReason := some "Attribute name is required" }
  else
    match findClassByName st (details.className.getD "") with
    | none =>
      let c := details.className.getD ""
      { base with ambiguous := true, ambiguityReason := some s!"Class {c} does not exist" }
    | some targetClass =>
      let n := details.name.getD ""
      if (getClassAttributes targetClass).any (fun a => a.name == n) then
        let c := details.className.getD ""
        { base with ambiguous := true,
                    ambiguityReason := some s!"Attribute {n} already exists in class {c}" }
      else base

/-- `_createAddReferenceOperation`. -/
def createAddReferenceOperation (st : Store) (details : Details) : MetaOp :=
  let base : MetaOp :=
    { action := "addReference",
      sourceClassName := details.sourceClassName,
      targetClassName := details.targetClassName,
      referenceName := details.name,
      containment := some (orBool details.containment false),
      lowerBound := some (orInt details.lowerBound 0),
      upperBound := some (orInt details.upperBound 1) }
  if strFalsy details.sourceClassName then
    { base with ambiguous := true, ambiguityReason := some "Source class name is required" }
  else if strFalsy details.targetClassName then
    { base with ambiguous := true, ambiguityReason := some "Target class name is required" }
  else if strFalsy details.name then
    { base with ambiguous := true, ambiguityReason := some "Reference name is required" }
  else
    let s := details.sourceClassName.getD ""
    let t := details.targetClassName.getD ""
    match findClassByName st s with
    | none =>
      { base with ambiguous := true, ambiguityReason := some s!"Source class {s} does not exist" }
    | some sourceClass =>
      if (findClassByName st t).isNone then
        { base with ambiguous := true, ambiguityReason := some s!"Target class {t} does not exist" }
      else
        let n := details.name.getD ""
        if (getClassReferences sourceClass).any (fun r => r.name == n) then
          { base with ambiguous := true,
                      ambiguityReason := some s!"Reference {n} already exists in class {s}" }
        else base

/-- `_findClassesReferencingClass`: one entry (the name of the holding class) per
reference whose type is the given class, scanning every class of the Store
(including the class itself, so a self-reference produces an entry). -/
def findClassesReferencingClass (st : Store) (className : String) : List String :=
  ((getAllClasses st).map (fun cls =>
    (getClassReferences cls).filterMap (fun r =>
      if r.typeName == className then some cls.name else none))).flatten

/-- `_createRemoveClassOperation`. -/
def createRemoveClassOperation (st : Store) (details : Details) : MetaOp :=
  let base : MetaOp := { action := "removeClass", className := details.name }
  if strFalsy details.name then
    { base with ambiguous := true, ambiguityReason := some "Class name is required" }
  else
    let n := details.name.getD ""
    match findClassByName st n with
    | none =>
      { base with ambiguous := true, ambiguityReason := some s!"Class {n} does not exist" }
    | some _ =>
      let referencingClasses := findClassesReferencingClass st n
      if referencingClasses.length > 0 then
        let joined := String.intercalate ", " referencingClasses
        { base with ambiguous := true,
                    ambiguityReason := some s!"Class {n} is referenced by: {joined}" }
      else base

/-- `_createRemoveAttributeOperation`. -/
def createRemoveAttributeOperation (st : Store) (details : Details) : MetaOp :=
  let base : MetaOp :=
    { action := "removeAttribute",
      className := details.className,
      attributeName := details.name }
  if strFalsy details.className then
    { base with ambiguous := true, ambiguityReason := some "Class name is required" }
  else if strFalsy details.name then
    { base with ambiguous := true, ambiguityReason := some "Attribute name is required" }
  else
    let c := details.className.getD ""
    match findClassByName st c with
    | none =>
      { base with ambiguous := true, ambiguityReason := some s!"Class {c} does not exist" }
    | some targetClass =>
      let n := details.name.getD ""
      if (getClassAttributes targetClass).any (fun a => a.name == n) then base
      else
        { base with ambiguous := true,
                    ambiguityReason := some s!"Attribute {n} does not exist in class {c}" }

/-- `_createRemoveReferenceOperation`. -/
def createRemoveReferenceOperation (st : Store) (details : Details) : MetaOp :=
  let base : MetaOp :=
    { action := "removeReference",
      className := details.className,
      referenceName := details.name }
  if strFalsy details.className then
    { base with ambiguous := true, ambiguityReason := some "Class name is required" }
  else if strFalsy details.name then
    { base with ambiguous := true, ambiguityReason := some "Reference name is required" }
  else
    let c := details.className.getD ""
    match findClassByName st c with
    | none =>
      { base with ambiguous := true, ambiguityReason := some s!"Class {c} does not exist" }
    | some targetClass =>
      let n := details.name.getD ""
      if (getClassReferences targetClass).any (fun r => r.name == n) then base
      else
        { base with ambiguous := true,
                    ambiguityReason := some s!"Reference {n} does not exist in class {c}" }

/-- `_createModifyClassOperation`. -/
def createModifyClassOperation (st : Store) (details : Details) : MetaOp :=
  let base : MetaOp :=
    { action := "modifyClass",
      className := details.name,
      newName := details.newName,
      newSuperTypes := details.newSuperTypes,
      newAbstract := details.newAbstract,
      newInterfaceFlag := details.newInterfaceFlag }
  if strFalsy details.name then
    { base with ambiguous := true, ambiguityReason := some "Class name is required" }
  else
    let n := details.name.getD ""
    match findClassByName st n with
    | none =>
      { base with ambiguous := true, ambiguityReason := some s!"Class {n} does not exist" }
    | some _ =>
      if strTruthy details.newName &&
         (findClassByName st (details.newName.getD "")).isSome then
        let nn := details.newName.getD ""
        { base with ambiguous := true, ambiguityReason := some s!"Class {nn} already exists" }
      else base

/-- `_createModifyAttributeOperation`. -/
def createModifyAttributeOperation (st : Store) (details : Details) : MetaOp :=
  let base : MetaOp :=
    { action := "modifyAttribute",
      className := details.className,
      attributeName := details.name,
      newName := details.newName,
      newType := details.newType,
      newLowerBound := details.newLowerBound,
      newUpperBound := details.newUpperBound }
  if strFalsy details.className then
    { base with ambiguous := true, ambiguityReason := some "Class name is required" }
  else if strFalsy details.name then
    { base with ambiguous := true, ambiguityReason := some "Attribute name is required" }
  else
    let c := details.className.getD ""
    match findClassByName st c with
    | none =>
      { base with ambiguous := true, ambiguityReason := some s!"Class {c} does not exist" }
    | some targetClass =>
      let n := details.name.getD ""
      if !((getClassAttributes targetClass).any (fun a => a.name == n)) then
        { base with ambiguous := true,
                    ambiguityReason := some s!"Attribute {n} does not exist in class {c}" }
      else if strTruthy details.newName &&
              (getClassAttributes targetClass).any
                (fun a => a.name == details.newName.getD "") then
        let nn := details.newName.getD ""
        { base with ambiguous := true,
                    ambiguityReason := some s!"Attribute {nn} already exists in class {c}" }
      else base

/-- `_createModifyReferenceOperation`.  Note: the new-target-class check is a
*separate* `if` in the source, run after (not chained with) the
reference-existence and rename-conflict checks, and it overwrites their
ambiguity reason when it fires. -/
def createModifyReferenceOperation (st : Store) (details : Details) : MetaOp :=
  let base : MetaOp :=
    { action := "modifyReference",
      className := details.className,
      referenceName := details.name,
      newName := details.newName,
      newTargetClassName := details.newTargetClassName,
      newContainment := details.newContainment,
      newLowerBound := details.newLowerBound,
      newUpperBound := details.newUpperBound }
  if strFalsy details.className then
    { base with ambiguous := true, ambiguityReason := some "Class name is required" }
  else if strFalsy details.name then
    { base with ambiguous := true, ambiguityReason := some "Reference name is required" }
  else
    let c := details.className.getD ""
    match findClassByName st c with
    | none =>
      { base with ambiguous := true, ambiguityReason := some s!"Class {c} does not exist" }
    | some targetClass =>
      let n := details.name.getD ""
      let step1 :=
        if !((getClassReferences targetClass).any (fun r => r.name == n)) then
          { base with ambiguous := true,
                      ambiguityReason := some s!"Reference {n} does not exist in class {c}" }
        else if strTruthy details.newName &&
                (getClassReferences targetClass).any
                  (fun r => r.name == details.newName.getD "") then
          let nn := details.newName.getD ""
          { base with ambiguous := true,
                      ambiguityReason := some s!"Reference {nn} already exists in class {c}" }
        else base
      if strTruthy details.newTargetClassName &&
         (findClassByName st (details.newTargetClassName.getD "")).isNone then
        let t := details.newTargetClassName.getD ""
        { step1 with ambiguous := true,
                     ambiguityReason := some s!"Target class {t} does not exist" }
      else step1

/-- Dispatch of `interpretModelChange` on the `type_element` key: the nine
recognized pairs route to their intent builder, anything else yields no
mutation intent. -/
def dispatchIntent (st : Store) (mc : ModelChange) : Option MetaOp :=
  match mc.type ++ "_" ++ mc.element with
  | "add_class" => some (createAddClassOperation st mc.details)
  | "add_attribute" => some (createAddAttributeOperation st mc.details)
  | "add_reference" => some (createAddReferenceOperation st mc.details)
  | "remove_class" => some (createRemoveClassOperation st mc.details)
  | "remove_attribute" => some (createRemoveAttributeOperation st mc.details)
  | "remove_reference" => some (createRemoveReferenceOperation st mc.details)
  | "modify_class" => some (createModifyClassOperation st mc.details)
  | "modify_attribute" => some (createModifyAttributeOperation st mc.details)
  | "modify_reference" => some (createModifyReferenceOperation st mc.details)
  | _ => none

/-- `interpretModelChange`: builds the Evolution Operation, appends it to the
ledger, and files its index into the ambiguity set when the built intent is
flagged ambiguous, otherwise into the pending queue.  An unrecognized pair
has no intent, so the routing condition
(`operation.metamodelOperation && operation.metamodelOperation.ambiguous`)
is false and the operation lands in the pending queue. -/
def interpretModelChange (m : Manager) (mc : ModelChange) : Manager × Operation :=
  let base : Operation :=
    { type := mc.type, element := mc.element, details := mc.details,
      status := "pending", ambiguous := false, ambiguityReason := none,
      metamodelOperation := none }
  let idx := m.evolutionOperations.length
  match dispatchIntent m.store mc with
  | some mo =>
    if mo.ambiguous then
      let op : Operation :=
        { base with metamodelOperation := some mo,
                    ambiguous := true, ambiguityReason := mo.ambiguityReason }
      ({ m with evolutionOperations := m.evolutionOperations ++ [op],
                ambiguities := m.ambiguities ++ [idx] }, op)
    else
      let op : Operation := { base with metamodelOperation := some mo }
      ({ m with evolutionOperations := m.evolutionOperations ++ [op],
                pendingChanges := m.pendingChanges ++ [idx] }, op)
  | none =>
    let op : Operation :=
      { base with status := "error", ambiguous := true,
                  ambiguityReason := some "Unknown change type or element" }
    ({ m with evolutionOperations := m.evolutionOperations ++ [op],
              pendingChanges := m.pendingChanges ++ [idx] }, op)

/-- Default class used with `List.getD` on positions known to be in range. -/
instance : Inhabited EClass := ⟨{ name := "" }⟩

/-- Position of the first classifier with the given name (the same element
`findClassByName` returns). -/
def classIndexByName (st : Store) (className : String) : Option Nat :=
  st.classes.findIdx? (fun c => c.name == className)

/-- Replace the class at a classifier-list position (no-op when out of range). -/
def updateClassAt (st : Store) (i : Nat) (f : EClass → EClass) : Store :=
  match st.classes.get? i with
  | none => st
  | some c => { st with classes := st.classes.set i (f c) }

/-- `MetamodelLoader.createClass` (the loader takes only the
class name; the extra arguments passed by the manager are ignored by JS). -/
def createClass (st : Store) (className : String) : Store × Option String :=
  if (findClassByName st className).isSome then
    (st, some s!"Class {className} already exists")
  else
    ({ st with classes := st.classes ++ [{ name := className }] }, none)

/-- `MetamodelLoader.addAttribute`: resolve the class, resolve the datatype
in the ecore built-in table, then append the attribute. -/
def addAttribute (st : Store) (className attributeName typeName : String)
    (lowerBound upperBound : Int) : Store × Option String :=
  match classIndexByName st className with
  | none => (st, some s!"Class with name {className} not found")
  | some i =>
    if ecoreHasType typeName then
      (updateClassAt st i (fun c =>
        { c with features :=
            c.features ++ [Feature.attr attributeName typeName lowerBound upperBound] }), none)
    else (st, some s!"DataType {typeName} not found")

/-- `MetamodelLoader.addReference`: resolve source and target classes, then
append the reference to the source class. -/
def addReference (st : Store) (sourceClassName targetClassName referenceName : String)
    (containment : Bool) (lowerBound upperBound : Int) : Store × Option String :=
  match classIndexByName st sourceClassName with
  | none => (st, some s!"Source class with name {sourceClassName} not found")
  | some i =>
    match findClassByName st targetClassName with
    | none => (st, some s!"Target class with name {targetClassName} not found")
    | some target =>
      (updateClassAt st i (fun c =>
        { c with features :=
            c.features ++ [Feature.ref referenceName target.name containment lowerBound upperBound] }), none)

def isAttrNamed (f : Feature) (n : String) : Bool :=
  match f with
  | Feature.attr a _ _ _ => a == n
  | Feature.ref _ _ _ _ _ => false

def isRefNamed (f : Feature) (n : String) : Bool :=
  match f with
  | Feature.attr _ _ _ _ => false
  | Feature.ref r _ _ _ _ => r == n

def setFeatureName (n : String) : Feature → Feature
  | Feature.attr _ t lb ub => Feature.attr n t lb ub
  | Feature.ref _ t ct lb ub => Feature.ref n t ct lb ub

def setFeatureType (t : String) : Feature → Feature
  | Feature.attr n _ lb ub => Feature.attr n t lb ub
  | Feature.ref n _ ct lb ub => Feature.ref n t ct lb ub

def setFeatureLower (lb : Int) : Feature → Feature
  | Feature.attr n t _ ub => Feature.attr n t lb ub
  | Feature.ref n t ct _ ub => Feature.ref n t ct lb ub

def setFeatureUpper (ub : Int) : Feature → Feature
  | Feature.attr n t lb _ => Feature.attr n t lb ub
  | Feature.ref n t ct lb _ => Feature.ref n t ct lb ub

def setFeatureContainment (b : Bool) : Feature → Feature
  | Feature.attr n t lb ub => Feature.attr n t lb ub
  | Feature.ref n t _ lb ub => Feature.ref n t b lb ub

/-- Replace the feature at position `j` of the class at position `i`. -/
def updateFeatureAt (st : Store) (i j : Nat) (f : Feature → Feature) : Store :=
  updateClassAt st i (fun c =>
    match c.features.get? j with
    | none => c
    | some ft => { c with features := c.features.set j (f ft) })

/-- `_applyAddClass` (superTypes/abstract/interface arguments of the call are
dropped by the `createClass` of the loader). -/
def applyAddClass (st : Store) (mo : MetaOp) : Store × Option String :=
  createClass st (mo.className.getD "")

/-- `_applyAddAttribute`. -/
def applyAddAttribute (st : Store) (mo : MetaOp) : Store × Option String :=
  addAttribute st (mo.className.getD "") (mo.attributeName.getD "")
    (mo.attributeType.getD "") (mo.lowerBound.getD 0) (mo.upperBound.getD 1)

/-- `_applyAddReference`. -/
def applyAddReference (st : Store) (mo : MetaOp) : Store × Option String :=
  addReference st (mo.sourceClassName.getD "") (mo.targetClassName.getD "")
    (mo.referenceName.getD "") (mo.containment.getD false)
    (mo.lowerBound.getD 0) (mo.upperBound.getD 1)

/-- `_applyRemoveClass`. -/
def applyRemoveClass (st : Store) (mo : MetaOp) : Store × Option String :=
  let n := mo.className.getD ""
  match classIndexByName st n with
  | none => (st, some s!"Class {n} not found")
  | some i => ({ st with classes := st.classes.eraseIdx i }, none)

/-- `_applyRemoveAttribute`: remove the first attribute feature with the
given name. -/
def applyRemoveAttribute (st : Store) (mo : MetaOp) : Store × Option String :=
  let cn := mo.className.getD ""
  let an := mo.attributeName.getD ""
  match classIndexByName st cn with
  | none => (st, some s!"Class {cn} not found")
  | some i =>
    let c := st.classes.getD i default
    if c.features.any (fun f => isAttrNamed f an) then
      (updateClassAt st i (fun c2 =>
        { c2 with features := c2.features.eraseP (fun f => isAttrNamed f an) }), none)
    else (st, some s!"Attribute {an} not found in class {cn}")

/-- `_applyRemoveReference`: remove the first reference feature with the
given name. -/
def applyRemoveReference (st : Store) (mo : MetaOp) : Store × Option String :=
  let cn := mo.className.getD ""
  let rn := mo.referenceName.getD ""
  match classIndexByName st cn with
  | none => (st, some s!"Class {cn} not found")
  | some i =>
    let c := st.classes.getD i default
    if c.features.any (fun f => isRefNamed f rn) then
      (updateClassAt st i (fun c2 =>
        { c2 with features := c2.features.eraseP (fun f => isRefNamed f rn) }), none)
    else (st, some s!"Reference {rn} not found in class {cn}")

/-- Supertype rebuild loop of `_applyModifyClass`: each name is looked up in
the current Store; a miss aborts with the partially rebuilt list kept. -/
def addSuperTypesLoop (i : Nat) : Store → List String → Store × Option String
  | st, [] => (st, none)
  | st, n :: rest =>
    match findClassByName st n with
    | none => (st, some s!"Super type {n} not found")
    | some _ =>
      addSuperTypesLoop i (updateClassAt st i (fun c =>
        { c with superTypes := c.superTypes ++ [n] })) rest

/-- `_applyModifyClass`. -/
def applyModifyClass (st : Store) (mo : MetaOp) : Store × Option String :=
  let cn := mo.className.getD ""
  match classIndexByName st cn with
  | none => (st, some s!"Class {cn} not found")
  | some i =>
    let st1 := if strTruthy mo.newName then
        updateClassAt st i (fun c => { c with name := mo.newName.getD "" }) else st
    let st2 := match mo.newAbstract with
      | some b => updateClassAt st1 i (fun c => { c with abstract := b })
      | none => st1
    let st3 := match mo.newInterfaceFlag with
      | some b => updateClassAt st2 i (fun c => { c with interfaceFlag := b })
      | none => st2
    match mo.newSuperTypes with
    | none => (st3, none)
    | some names =>
      let st4 := updateClassAt st3 i (fun c => { c with superTypes := [] })
      addSuperTypesLoop i st4 names

/-- `_applyModifyAttribute`: a failing type lookup aborts after a requested
rename has already been written (partial mutation, as in the source). -/
def applyModifyAttribute (st : Store) (mo : MetaOp) : Store × Option String :=
  let cn := mo.className.getD ""
  let an := mo.attributeName.getD ""
  match classIndexByName st cn with
  | none => (st, some s!"Class {cn} not found")
  | some i =>
    let c := st.classes.getD i default
    match c.features.findIdx? (fun f => isAttrNamed f an) with
    | none => (st, some s!"Attribute {an} not found in class {cn}")
    | some j =>
      let st1 := if strTruthy mo.newName then
          updateFeatureAt st i j (setFeatureName (mo.newName.getD "")) else st
      if strTruthy mo.newType && !(ecoreHasType (mo.newType.getD "")) then
        let t := mo.newType.getD ""
        (st1, some s!"Type {t} not found")
      else
        let st2 := if strTruthy mo.newType then
            updateFeatureAt st1 i j (setFeatureType (mo.newType.getD "")) else st1
        let st3 := match mo.newLowerBound with
          | some v => updateFeatureAt st2 i j (setFeatureLower v)
          | none => st2
        let st4 := match mo.newUpperBound with
          | some v => updateFeatureAt st3 i j (setFeatureUpper v)
          | none => st3
        (st4, none)

/-- `_applyModifyReference`: a failing new-target lookup aborts after a
requested rename has already been written (partial mutation). -/
def applyModifyReference (st : Store) (mo : MetaOp) : Store × Option String :=
  let cn := mo.className.getD ""
  let rn := mo.referenceName.getD ""
  match classIndexByName st cn with
  | none => (st, some s!"Class {cn} not found")
  | some i =>
    let c := st.classes.getD i default
    match c.features.findIdx? (fun f => isRefNamed f rn) with
    | none => (st, some s!"Reference {rn} not found in class {cn}")
    | some j =>
      let st1 := if strTruthy mo.newName then
          updateFeatureAt st i j (setFeatureName (mo.newName.getD "")) else st
      if strTruthy mo.newTargetClassName &&
         (findClassByName st1 (mo.newTargetClassName.getD "")).isNone then
        let t := mo.newTargetClassName.getD ""
        (st1, some s!"Target class {t} not found")
      else
        let st2 := if strTruthy mo.newTargetClassName then
            updateFeatureAt st1 i j (setFeatureType (mo.newTargetClassName.getD "")) else st1
        let st3 := match mo.newContainment with
          | some b => updateFeatureAt st2 i j (setFeatureContainment b)
          | none => st2
        let st4 := match mo.newLowerBound with
          | some v => updateFeatureAt st3 i j (setFeatureLower v)
          | none => st3
        let st5 := match mo.newUpperBound with
          | some v => updateFeatureAt st4 i j (setFeatureUpper v)
          | none => st4
        (st5, none)

/-- `_applyOperation` including the surrounding try/catch of the sweep:
the result is the store as mutated so far plus the caught error message.
A missing mutation intent raises the JS TypeError of reading `action` on
`null`; an unknown action raises the dedicated error. -/
def applyOperation (st : Store) (op : Operation) : Store × Option String :=
  match op.metamodelOperation with
  | none => (st, some "Cannot read properties of null reading action")
  | some mo =>
    match mo.action with
    | "addClass" => applyAddClass st mo
    | "addAttribute" => applyAddAttribute st mo
    | "addReference" => applyAddReference st mo
    | "removeClass" => applyRemoveClass st mo
    | "removeAttribute" => applyRemoveAttribute st mo
    | "removeReference" => applyRemoveReference st mo
    | "modifyClass" => applyModifyClass st mo
    | "modifyAttribute" => applyModifyAttribute st mo
    | "modifyReference" => applyModifyReference st mo
    | a => (st, some s!"Unknown operation action: {a}")

/-- Result record of `applyPendingChanges`.  `appliedChanges` and
`failedChanges` hold ledger indices of the operations (the JS arrays hold
references to the operation objects). -/
structure ApplyResult where
  success : Bool := true
  appliedChanges : List Nat := []
  failedChanges : List Nat := []
  errors : List String := []
deriving DecidableEq, Repr

instance : Inhabited Operation :=
  ⟨{ type := "", element := "", details := {}, status := "", ambiguous := false,
     ambiguityReason := none, metamodelOperation := none }⟩

/-- The per-operation sweep of `applyPendingChanges`: apply each pending
operation in order, marking it applied or failed and accumulating the
result; a failure does not stop the sweep. -/
def applySweep (st : Store) (ledger : List Operation) (idxs : List Nat)
    (res : ApplyResult) : Store × List Operation × ApplyResult :=
  match idxs with
  | [] => (st, ledger, res)
  | i :: rest =>
    let op := ledger.getD i default
    let out := applyOperation st op
    match out.2 with
    | none =>
      applySweep out.1 (ledger.set i { op with status := "applied" }) rest
        { res with appliedChanges := res.appliedChanges ++ [i] }
    | some msg =>
      applySweep out.1 (ledger.set i { op with status := "failed", error := some msg }) rest
        { res with failedChanges := res.failedChanges ++ [i],
                   errors := res.errors ++ [s!"Failed to apply operation: {msg}"],
                   success := false }

/-- `applyPendingChanges`: refuse outright when the ambiguity set is
non-empty (before touching anything), otherwise sweep the pending queue and
clear it. -/
def applyPendingChanges (m : Manager) : Manager × ApplyResult :=
  if m.ambiguities.length > 0 then
    let n := m.ambiguities.length
    (m, { success := false,
          errors := [s!"There are {n} unresolved ambiguities. Please resolve them before applying changes."] })
  else
    let out := applySweep m.store m.evolutionOperations m.pendingChanges {}
    ({ m with store := out.1, evolutionOperations := out.2.1, pendingChanges := [] }, out.2.2)

/-- Resolution data passed to `resolveAmbiguity`: a JS object whose keys,
when present, override the corresponding key of the mutation intent
(`Object.assign`).  `some v` models a present key with value `v`. -/
structure Resolution where
  action : Option String := none
  className : Option (Option String) := none
  superTypes : Option (Option (List String)) := none
  abstract : Option (Option Bool) := none
  interfaceFlag : Option (Option Bool) := none
  attributeName : Option (Option String) := none
  attributeType : Option (Option String) := none
  sourceClassName : Option (Option String) := none
  targetClassName : Option (Option String) := none
  referenceName : Option (Option String) := none
  containment : Option (Option Bool) := none
  lowerBound : Option (Option Int) := none
  upperBound : Option (Option Int) := none
  newName : Option (Option String) := none
  newType : Option (Option String) := none
  newSuperTypes : Option (Option (List String)) := none
  newAbstract : Option (Option Bool) := none
  newInterfaceFlag : Option (Option Bool) := none
  newTargetClassName : Option (Option String) := none
  newContainment : Option (Option Bool) := none
  newLowerBound : Option (Option Int) := none
  newUpperBound : Option (Option Int) := none
  ambiguous : Option Bool := none
  ambiguityReason : Option (Option String) := none
deriving DecidableEq, Repr

/-- `Object.assign(metamodelOperation, resolution)`: keys present in the
resolution override, absent keys retain the prior values of the intent. -/
def objectAssign (mo : MetaOp) (r : Resolution) : MetaOp :=
  { action := r.action.getD mo.action,
    className := r.className.getD mo.className,
    superTypes := r.superTypes.getD mo.superTypes,
    abstract := r.abstract.getD mo.abstract,
    interfaceFlag := r.interfaceFlag.getD mo.interfaceFlag,
    attributeName := r.attributeName.getD mo.attributeName,
    attributeType := r.attributeType.getD mo.attributeType,
    sourceClassName := r.sourceClassName.getD mo.sourceClassName,
    targetClassName := r.targetClassName.getD mo.targetClassName,
    referenceName := r.referenceName.getD mo.referenceName,
    containment := r.containment.getD mo.containment,
    lowerBound := r.lowerBound.getD mo.lowerBound,
    upperBound := r.upperBound.getD mo.upperBound,
    newName := r.newName.getD mo.newName,
    newType := r.newType.getD mo.newType,
    newSuperTypes := r.newSuperTypes.getD mo.newSuperTypes,
    newAbstract := r.newAbstract.getD mo.newAbstract,
    newInterfaceFlag := r.newInterfaceFlag.getD mo.newInterfaceFlag,
    newTargetClassName := r.newTargetClassName.getD mo.newTargetClassName,
    newContainment := r.newContainment.getD mo.newContainment,
    newLowerBound := r.newLowerBound.getD mo.newLowerBound,
    newUpperBound := r.newUpperBound.getD mo.newUpperBound,
    ambiguous := r.ambiguous.getD mo.ambiguous,
    ambiguityReason := r.ambiguityReason.getD mo.ambiguityReason }

/-- `resolveAmbiguity`: a missing index throws; a non-ambiguous operation is
returned unchanged; otherwise the resolution is merged into the mutation
intent, the operation is re-staged as pending, and its index is moved from
the ambiguity set to the pending queue when present there. -/
def resolveAmbiguity (m : Manager) (operationIndex : Nat) (resolution : Resolution) :
    Except String (Manager × Operation) :=
  match m.evolutionOperations.get? operationIndex with
  | none => Except.error s!"Operation at index {operationIndex} not found"
  | some operation =>
    if operation.ambiguous = false then Except.ok (m, operation)
    else
      let op1 :=
        match operation.metamodelOperation with
        | some mo => { operation with metamodelOperation := some (objectAssign mo resolution) }
        | none => operation
      let op2 := { op1 with ambiguous := false, ambiguityReason := none, status := "pending" }
      let ledger := m.evolutionOperations.set operationIndex op2
      if operationIndex ∈ m.ambiguities then
        let ambs := m.ambiguities.erase operationIndex
        let pend := if operationIndex ∈ m.pendingChanges then m.pendingChanges
                    else m.pendingChanges ++ [operationIndex]
        Except.ok ({ m with evolutionOperations := ledger,
                            ambiguities := ambs, pendingChanges := pend }, op2)
      else
        Except.ok ({ m with evolutionOperations := ledger }, op2)

/-- Interpretation never touches the Store: the interpreter only reads it. -/
theorem interpretModelChange_store (m : Manager) (mc : ModelChange) :
    (interpretModelChange m mc).1.store = m.store := by
  unfold interpretModelChange
  cases h : dispatchIntent m.store mc with
  | none => rfl
  | some mo =>
    by_cases hb : mo.ambiguous <;> simp [hb]

/-- Interpretation appends exactly the returned operation to the ledger. -/
theorem interpretModelChange_ledger (m : Manager) (mc : ModelChange) :
    (interpretModelChange m mc).1.evolutionOperations =
      m.evolutionOperations ++ [(interpretModelChange m mc).2] := by
  unfold interpretModelChange
  cases h : dispatchIntent m.store mc with
  | none => rfl
  | some mo =>
    by_cases hb : mo.ambiguous <;> simp [hb]

/-- C4: with a non-empty ambiguity set, `applyPendingChanges` refuses the
whole call: the manager (Store, ledger statuses, pending queue) is returned
untouched, `success` is false, nothing is listed applied or failed, and the
single error cites the number of unresolved ambiguities. -/
theorem c4_applyPending_refused_on_ambiguities (m : Manager)
    (h : m.ambiguities ≠ []) :
    let r := applyPendingChanges m
    let n := m.ambiguities.length
    r.1 = m ∧ r.2.success = false ∧
    r.2.appliedChanges = [] ∧ r.2.failedChanges = [] ∧
    r.2.errors = [s!"There are {n} unresolved ambiguities. Please resolve them before applying changes."] := by
  have hpos : 0 < m.ambiguities.length := List.length_pos.mpr h
  simp [applyPendingChanges, hpos]

/-- Witness for C4 at a one-ambiguity manager. -/
theorem c4_applyPending_refused_on_ambiguities_witness :
    let m : Manager :=
      { store := ⟨[]⟩,
        evolutionOperations := [default],
        ambiguities := [0], pendingChanges := [] }
    m.ambiguities ≠ [] ∧
    ((applyPendingChanges m).1 = m ∧ (applyPendingChanges m).2.success = false ∧
     (applyPendingChanges m).2.appliedChanges = [] ∧
     (applyPendingChanges m).2.failedChanges = [] ∧
     (applyPendingChanges m).2.errors =
       ["There are 1 unresolved ambiguities. Please resolve them before applying changes."]) := by
  refine ⟨by decide, ?_⟩
  exact c4_applyPending_refused_on_ambiguities _ (by decide)

/-- C7: resolving an operation that exists and is not ambiguous is a
complete no-op: the operation is returned unchanged and the manager state
(ledger, ambiguity set, pending queue, Store) is untouched. -/
theorem c7_resolve_nonambiguous_noop (m : Manager) (i : Nat) (r : Resolution)
    (op : Operation) (hget : m.evolutionOperations.get? i = some op)
    (hamb : op.ambiguous = false) :
    resolveAmbiguity m i r = Except.ok (m, op) := by
  unfold resolveAmbiguity
  rw [hget]
  simp [hamb]

/-- Witness for C7 at a one-operation manager with a pending operation. -/
theorem c7_resolve_nonambiguous_noop_witness :
    let op : Operation :=
      { type := "add", element := "class", details := { name := some "C" },
        status := "pending", ambiguous := false, ambiguityReason := none,
        metamodelOperation := some { action := "addClass", className := some "C" } }
    let m : Manager :=
      { store := ⟨[]⟩, evolutionOperations := [op],
        ambiguities := [], pendingChanges := [0] }
    m.evolutionOperations.get? 0 = some op ∧ op.ambiguous = false ∧
    resolveAmbiguity m 0 {} = Except.ok (m, op) := by
  refine ⟨rfl, rfl, ?_⟩
  exact c7_resolve_nonambiguous_noop _ _ _ _ rfl rfl

/-- The upper bound carried by an AddAttribute intent is always the
JS-truthy default of the supplied value. -/
theorem createAddAttributeOperation_upperBound (st : Store) (dt : Details) :
    (createAddAttributeOperation st dt).upperBound = some (orInt dt.upperBound 1) := by
  simp only [createAddAttributeOperation]
  repeat' split
  all_goals rfl

/-- The lower bound carried by an AddAttribute intent. -/
theorem createAddAttributeOperation_lowerBound (st : Store) (dt : Details) :
    (createAddAttributeOperation st dt).lowerBound = some (orInt dt.lowerBound 0) := by
  simp only [createAddAttributeOperation]
  repeat' split
  all_goals rfl

/-- The upper bound carried by an AddReference intent. -/
theorem createAddReferenceOperation_upperBound (st : Store) (dt : Details) :
    (createAddReferenceOperation st dt).upperBound = some (orInt dt.upperBound 1) := by
  simp only [createAddReferenceOperation]
  repeat' split
  all_goals rfl

/-- The lower bound carried by an AddReference intent. -/
theorem createAddReferenceOperation_lowerBound (st : Store) (dt : Details) :
    (createAddReferenceOperation st dt).lowerBound = some (orInt dt.lowerBound 0) := by
  simp only [createAddReferenceOperation]
  repeat' split
  all_goals rfl

/-- C9: a supplied upper bound of 0 is replaced by the default 1 in the
constructed AddAttribute and AddReference intents (the `||` default fires on
every falsy value, not only absent ones), while a supplied lower bound of 0
is kept as 0. -/
theorem c9_zero_bounds_defaulting (st : Store) (dt : Details) :
    (dt.upperBound = some 0 →
      (createAddAttributeOperation st dt).upperBound = some 1 ∧
      (createAddReferenceOperation st dt).upperBound = some 1) ∧
    (dt.lowerBound = some 0 →
      (createAddAttributeOperation st dt).lowerBound = some 0 ∧
      (createAddReferenceOperation st dt).lowerBound = some 0) := by
  constructor
  · intro h
    rw [createAddAttributeOperation_upperBound, createAddReferenceOperation_upperBound, h]
    exact ⟨rfl, rfl⟩
  · intro h
    rw [createAddAttributeOperation_lowerBound, createAddReferenceOperation_lowerBound, h]
    exact ⟨rfl, rfl⟩

/-- Witness for C9 at a descriptor supplying both bounds as 0. -/
theorem c9_zero_bounds_defaulting_witness :
    let st : Store := ⟨[]⟩
    let dt : Details := { lowerBound := some 0, upperBound := some 0 }
    (dt.upperBound = some 0 →
      (createAddAttributeOperation st dt).upperBound = some 1 ∧
      (createAddReferenceOperation st dt).upperBound = some 1) ∧
    (dt.lowerBound = some 0 →
      (createAddAttributeOperation st dt).lowerBound = some 0 ∧
      (createAddReferenceOperation st dt).lowerBound = some 0) := by
  exact c9_zero_bounds_defaulting _ _

/-- C1 counterexample: a descriptor with an unrecognized
(changeType, elementKind) pair yields an operation with no mutation intent
that is marked Ambiguous with the claimed reason — but the interpreter files
it into the *pending queue*, not the ambiguity set (the routing condition
tests the flag of the missing mutation intent), refuting both the claimed filing
and the claimed equivalence between ambiguity and ambiguity-set membership. -/
theorem c1_counterexample :
    let m : Manager := { store := ⟨[]⟩ }
    let mc : ModelChange := { type := "foo", element := "bar", details := {} }
    let r := interpretModelChange m mc
    r.2.ambiguous = true ∧
    r.2.ambiguityReason = some "Unknown change type or element" ∧
    r.2.metamodelOperation = none ∧
    r.1.pendingChanges = [0] ∧ r.1.ambiguities = [] := by
  exact ⟨rfl, rfl, rfl, rfl, rfl⟩

/-- C1 amended: for every interpreted descriptor whose operation carries a
mutation intent, the operation is ambiguous iff its ledger index was
appended to the ambiguity set and the pending queue was left alone (and
non-ambiguous iff the pending queue got it and the ambiguity set was left
alone); an unrecognized pair yields an operation with no mutation intent,
marked Ambiguous with reason "Unknown change type or element" and status
"error", which is filed into the pending queue, never the ambiguity set. -/
theorem c1_routing_amended (m : Manager) (mc : ModelChange) :
    let r := interpretModelChange m mc
    let idx := m.evolutionOperations.length
    r.1.evolutionOperations = m.evolutionOperations ++ [r.2] ∧
    (∀ mo, r.2.metamodelOperation = some mo →
      ((r.2.ambiguous = true ↔
          r.1.ambiguities = m.ambiguities ++ [idx] ∧
          r.1.pendingChanges = m.pendingChanges) ∧
       (r.2.ambiguous = false ↔
          r.1.pendingChanges = m.pendingChanges ++ [idx] ∧
          r.1.ambiguities = m.ambiguities))) ∧
    (r.2.metamodelOperation = none →
      r.2.ambiguous = true ∧ r.2.status = "error" ∧
      r.2.ambiguityReason = some "Unknown change type or element" ∧
      r.1.pendingChanges = m.pendingChanges ++ [idx] ∧
      r.1.ambiguities = m.ambiguities) := by
  unfold interpretModelChange
  cases h : dispatchIntent m.store mc with
  | none =>
    refine ⟨rfl, ?_, ?_⟩
    · intro mo hmo
      simp at hmo
    · intro _
      exact ⟨rfl, rfl, rfl, rfl, rfl⟩
  | some mo =>
    by_cases hb : mo.ambiguous
    · simp only [hb]
      refine ⟨by simp, ?_, ?_⟩
      · intro mo2 _
        constructor
        · constructor
          · intro _
            exact ⟨rfl, rfl⟩
          · intro _
            rfl
        · constructor
          · intro hfalse
            simp at hfalse
          · intro ⟨hp, _⟩
            exfalso
            have := congrArg List.length hp
            simp at this
      · intro hnone
        simp at hnone
    · simp only [Bool.not_eq_true] at hb
      simp only [hb]
      refine ⟨by simp, ?_, ?_⟩
      · intro mo2 _
        constructor
        · constructor
          · intro htrue
            simp at htrue
          · intro ⟨ha, _⟩
            exfalso
            have := congrArg List.length ha
            simp at this
        · constructor
          · intro _
            exact ⟨rfl, rfl⟩
          · intro _
            rfl
      · intro hnone
        simp at hnone

/-- Witness for C1 amended, at an empty manager and an unrecognized pair. -/
theorem c1_routing_amended_witness :
    let m : Manager := { store := ⟨[]⟩ }
    let mc : ModelChange := { type := "foo", element := "bar", details := {} }
    let r := interpretModelChange m mc
    r.1.evolutionOperations = [r.2] ∧
    (r.2.metamodelOperation = none →
      r.2.ambiguous = true ∧ r.2.status = "error" ∧
      r.2.ambiguityReason = some "Unknown change type or element" ∧
      r.1.pendingChanges = [0] ∧ r.1.ambiguities = []) := by
  have h := c1_routing_amended { store := ⟨[]⟩ }
    { type := "foo", element := "bar", details := {} }
  exact ⟨h.1, fun hn => h.2.2 hn⟩

/-- The referencing-class scan is non-empty exactly when some class of the
Store (the scanned class itself included) holds a reference whose type is
the given class. -/
theorem findClassesReferencingClass_ne_nil_iff (st : Store) (X : String) :
    findClassesReferencingClass st X ≠ [] ↔
      ∃ c ∈ getAllClasses st, ∃ rf ∈ getClassReferences c, rf.typeName = X := by
  unfold findClassesReferencingClass
  rw [ne_eq, List.flatten_eq_nil_iff]
  push_neg
  constructor
  · rintro ⟨l, hl, hlne⟩
    rw [List.mem_map] at hl
    obtain ⟨c, hc, rfl⟩ := hl
    rw [ne_eq, List.filterMap_eq_nil_iff] at hlne
    push_neg at hlne
    obtain ⟨rf, hrf, hne⟩ := hlne
    refine ⟨c, hc, rf, hrf, ?_⟩
    by_contra hty
    apply hne
    simp [hty]
  · rintro ⟨c, hc, rf, hrf, hty⟩
    refine ⟨(getClassReferences c).filterMap
      (fun r => if r.typeName == X then some c.name else none),
      List.mem_map.mpr ⟨c, hc, rfl⟩, ?_⟩
    rw [ne_eq, List.filterMap_eq_nil_iff]
    push_neg
    exact ⟨rf, hrf, by simp [hty]⟩

/-- C2 counterexample: in a Store whose only class `A` holds a reference of
type `A` (a self-reference), no *other* class references `A`, yet
`interpret(RemoveClass, name=A)` is Ambiguous — the referential-integrity
scan counts the class itself — refuting the claim that the operation is
Pending whenever no other class references it. -/
theorem c2_counterexample :
    let st : Store := ⟨[{ name := "A", features := [Feature.ref "r" "A" false 0 1] }]⟩
    let m : Manager := { store := st }
    let mc : ModelChange :=
      { type := "remove", element := "class", details := { name := some "A" } }
    let r := interpretModelChange m mc
    (∀ c ∈ getAllClasses st, c.name ≠ "A" →
       ∀ rf ∈ getClassReferences c, rf.typeName ≠ "A") ∧
    r.2.ambiguous = true ∧
    r.2.ambiguityReason = some "Class A is referenced by: A" := by
  exact ⟨by decide, rfl, rfl⟩


/-- A RemoveClass change descriptor for the given class name. -/
def removeClassChange (X : String) : ModelChange :=
  { type := "remove", element := "class", details := { name := some X } }

/-- The ambiguity message produced by the RemoveClass referential-integrity
guard for the given class name, over the current Store. -/
def removalReason (st : Store) (X : String) : String :=
  let joined := String.intercalate ", " (findClassesReferencingClass st X)
  s!"Class {X} is referenced by: {joined}"

/-- Properties of an interpreted operation whose descriptor dispatched to an
intent builder: flag, reason and routing all follow the built intent. -/
theorem interpret_of_dispatch (m : Manager) (mc : ModelChange) (mo : MetaOp)
    (h : dispatchIntent m.store mc = some mo) :
    (interpretModelChange m mc).2.metamodelOperation = some mo ∧
    (interpretModelChange m mc).2.ambiguous = mo.ambiguous ∧
    (interpretModelChange m mc).2.type = mc.type ∧
    (interpretModelChange m mc).2.element = mc.element ∧
    (interpretModelChange m mc).2.details = mc.details ∧
    (mo.ambiguous = true →
      (interpretModelChange m mc).2.ambiguityReason = mo.ambiguityReason ∧
      (interpretModelChange m mc).1.ambiguities =
        m.ambiguities ++ [m.evolutionOperations.length] ∧
      (interpretModelChange m mc).1.pendingChanges = m.pendingChanges) ∧
    (mo.ambiguous = false →
      (interpretModelChange m mc).2.status = "pending" ∧
      (interpretModelChange m mc).1.pendingChanges =
        m.pendingChanges ++ [m.evolutionOperations.length] ∧
      (interpretModelChange m mc).1.ambiguities = m.ambiguities) := by
  unfold interpretModelChange
  rw [h]
  by_cases hb : mo.ambiguous
  · simp [hb]
  · simp only [Bool.not_eq_true] at hb
    simp [hb]

/-- C2 amended: for a supplied class name X naming an existing class,
`interpret(RemoveClass, name=X)` is Ambiguous exactly when *some* class —
including X itself, so self-references count — holds a reference whose type
is X; in that case the reason lists the (possibly repeated) names of the
holding classes, one entry per referencing reference, and the operation
goes to the ambiguity set; otherwise it is Pending and queued. -/
theorem c2_removeClass_amended (m : Manager) (X : String) (cls : EClass)
    (hX : X ≠ "") (hfind : findClassByName m.store X = some cls) :
    ((interpretModelChange m (removeClassChange X)).2.ambiguous = true ↔
       ∃ c ∈ getAllClasses m.store, ∃ rf ∈ getClassReferences c, rf.typeName = X) ∧
    ((interpretModelChange m (removeClassChange X)).2.ambiguous = true →
       (interpretModelChange m (removeClassChange X)).2.ambiguityReason =
         some (removalReason m.store X) ∧
       (interpretModelChange m (removeClassChange X)).1.ambiguities =
         m.ambiguities ++ [m.evolutionOperations.length] ∧
       (interpretModelChange m (removeClassChange X)).1.pendingChanges =
         m.pendingChanges) ∧
    ((interpretModelChange m (removeClassChange X)).2.ambiguous = false →
       (interpretModelChange m (removeClassChange X)).2.status = "pending" ∧
       (interpretModelChange m (removeClassChange X)).1.pendingChanges =
         m.pendingChanges ++ [m.evolutionOperations.length] ∧
       (interpretModelChange m (removeClassChange X)).1.ambiguities =
         m.ambiguities) := by
  have hX' : (X == "") = false := by simp [hX]
  have hdisp : dispatchIntent m.store (removeClassChange X) =
      some (createRemoveClassOperation m.store (removeClassChange X).details) := rfl
  obtain ⟨_, hamb, _, _, _, htrue, hfalse⟩ :=
    interpret_of_dispatch m (removeClassChange X) _ hdisp
  by_cases hne : findClassesReferencingClass m.store X = []
  · have hmo : createRemoveClassOperation m.store (removeClassChange X).details =
        { action := "removeClass", className := some X } := by
      unfold createRemoveClassOperation removeClassChange
      simp [strFalsy, hX', hfind, hne]
    rw [hmo] at hamb htrue hfalse
    refine ⟨?_, ?_, ?_⟩
    · rw [hamb]
      simp only [MetaOp.ambiguous]
      constructor
      · intro hf
        simp at hf
      · intro hex
        exact absurd ((findClassesReferencingClass_ne_nil_iff m.store X).mpr hex)
          (by simp [hne])
    · intro ht
      rw [hamb] at ht
      simp at ht
    · intro _
      exact hfalse rfl
  · have hlen : 0 < (findClassesReferencingClass m.store X).length :=
      List.length_pos.mpr hne
    have hmo : createRemoveClassOperation m.store (removeClassChange X).details =
        { action := "removeClass", className := some X, ambiguous := true,
          ambiguityReason := some (removalReason m.store X) } := by
      unfold createRemoveClassOperation removeClassChange removalReason
      simp [strFalsy, hX', hfind, hne, hlen]
    rw [hmo] at hamb htrue hfalse
    refine ⟨?_, ?_, ?_⟩
    · rw [hamb]
      simp only [MetaOp.ambiguous]
      constructor
      · intro _
        exact (findClassesReferencingClass_ne_nil_iff m.store X).mp hne
      · intro _
        trivial
    · intro _
      exact htrue rfl
    · intro hf
      rw [hamb] at hf
      simp at hf

/-- Witness for C2 amended: class B references class A. -/
theorem c2_removeClass_amended_witness :
    let st : Store := ⟨[{ name := "A" },
                       { name := "B", features := [Feature.ref "toA" "A" false 0 1] }]⟩
    let m : Manager := { store := st }
    ("A" : String) ≠ "" ∧ findClassByName st "A" = some { name := "A" } ∧
    (((interpretModelChange m (removeClassChange "A")).2.ambiguous = true ↔
       ∃ c ∈ getAllClasses st, ∃ rf ∈ getClassReferences c, rf.typeName = "A") ∧
     ((interpretModelChange m (removeClassChange "A")).2.ambiguous = true →
       (interpretModelChange m (removeClassChange "A")).2.ambiguityReason =
         some (removalReason st "A") ∧
       (interpretModelChange m (removeClassChange "A")).1.ambiguities = [0] ∧
       (interpretModelChange m (removeClassChange "A")).1.pendingChanges = [])) := by
  refine ⟨by decide, rfl, ?_⟩
  have h := c2_removeClass_amended
    { store := ⟨[{ name := "A" },
                 { name := "B", features := [Feature.ref "toA" "A" false 0 1] }]⟩ }
    "A" { name := "A" } (by decide) rfl
  exact ⟨h.1, fun ht => (h.2.1 ht)⟩

/-- Reading a position other than the one just written is unchanged. -/
theorem getD_set_ne_helper {α : Type} (l : List α) (i j : Nat) (a d : α)
    (h : i ≠ j) : (l.set i a).getD j d = l.getD j d := by
  simp [List.getD_eq_getElem?_getD, List.getElem?_set_ne h]

/-- Reading the position just written yields the written element. -/
theorem getD_set_self_helper {α : Type} (l : List α) (i : Nat) (a d : α)
    (h : i < l.length) : (l.set i a).getD i d = a := by
  simp [List.getD_eq_getElem?_getD, List.getElem?_set_self h]

/-- Sweep step on a failing operation: it is marked failed with its message,
an error entry is appended, success is cleared, and the sweep continues on
the store as mutated so far. -/
theorem applySweep_cons_fail (st : Store) (ledger : List Operation) (i : Nat)
    (rest : List Nat) (res : ApplyResult) (st' : Store) (msg : String)
    (h : applyOperation st (ledger.getD i default) = (st', some msg)) :
    applySweep st ledger (i :: rest) res =
      applySweep st'
        (ledger.set i { ledger.getD i default with status := "failed", error := some msg })
        rest
        { res with failedChanges := res.failedChanges ++ [i],
                   errors := res.errors ++ [s!"Failed to apply operation: {msg}"],
                   success := false } := by
  conv_lhs => rw [applySweep]
  rw [h]

/-- Sweep step on a succeeding operation: it is marked applied and the sweep
continues on the mutated store. -/
theorem applySweep_cons_ok (st : Store) (ledger : List Operation) (i : Nat)
    (rest : List Nat) (res : ApplyResult) (st' : Store)
    (h : applyOperation st (ledger.getD i default) = (st', none)) :
    applySweep st ledger (i :: rest) res =
      applySweep st' (ledger.set i { ledger.getD i default with status := "applied" }) rest
        { res with appliedChanges := res.appliedChanges ++ [i] } := by
  conv_lhs => rw [applySweep]
  rw [h]

/-- C3: with an empty ambiguity set and a two-operation pending queue whose
first operation fails to apply and whose second applies successfully on the
post-failure store, the batch applies the valid operation (status
"applied"), marks the invalid one "failed" with its failure detail, returns
`success = false` with exactly one error entry, clears the pending queue,
and the failure does not prevent the Store mutation of the valid operation. -/
theorem c3_applyPending_mixed_batch (m : Manager) (i j : Nat)
    (st₀ st₁ : Store) (msg : String)
    (hij : i ≠ j)
    (hi : i < m.evolutionOperations.length)
    (hj : j < m.evolutionOperations.length)
    (hamb : m.ambiguities = [])
    (hpend : m.pendingChanges = [i, j])
    (hfail : applyOperation m.store (m.evolutionOperations.getD i default) =
      (st₀, some msg))
    (hok : applyOperation st₀ (m.evolutionOperations.getD j default) =
      (st₁, none)) :
    (applyPendingChanges m).2.success = false ∧
    (applyPendingChanges m).2.appliedChanges = [j] ∧
    (applyPendingChanges m).2.failedChanges = [i] ∧
    (applyPendingChanges m).2.errors = [s!"Failed to apply operation: {msg}"] ∧
    ((applyPendingChanges m).1.evolutionOperations.getD i default).status = "failed" ∧
    ((applyPendingChanges m).1.evolutionOperations.getD i default).error = some msg ∧
    ((applyPendingChanges m).1.evolutionOperations.getD j default).status = "applied" ∧
    (applyPendingChanges m).1.store = st₁ ∧
    (applyPendingChanges m).1.pendingChanges = [] := by
  have hok' : applyOperation st₀
      ((m.evolutionOperations.set i
        { m.evolutionOperations.getD i default with
          status := "failed", error := some msg }).getD j default) = (st₁, none) := by
    rw [getD_set_ne_helper _ _ _ _ _ hij]
    exact hok
  have key : applyPendingChanges m =
      (⟨st₁,
        (m.evolutionOperations.set i
          { m.evolutionOperations.getD i default with
            status := "failed", error := some msg }).set j
          { m.evolutionOperations.getD j default with status := "applied" },
        m.ambiguities,
        []⟩,
       ⟨false, [j], [i], [s!"Failed to apply operation: {msg}"]⟩) := by
    unfold applyPendingChanges
    rw [hamb]
    simp only [List.length_nil, gt_iff_lt, lt_self_iff_false, if_false]
    rw [hpend]
    rw [applySweep_cons_fail _ _ _ _ _ _ _ hfail]
    rw [applySweep_cons_ok _ _ _ _ _ _ hok']
    rw [getD_set_ne_helper _ _ _ _ _ hij]
    rfl
  rw [key]
  refine ⟨rfl, rfl, rfl, rfl, ?_, ?_, ?_, rfl, rfl⟩
  · rw [getD_set_ne_helper _ _ _ _ _ (fun h => hij h.symm),
        getD_set_self_helper _ _ _ _ hi]
  · rw [getD_set_ne_helper _ _ _ _ _ (fun h => hij h.symm),
        getD_set_self_helper _ _ _ _ hi]
  · rw [getD_set_self_helper _ _ _ _ (by rw [List.length_set]; exact hj)]

/-- Witness for C3: a failing RemoveAttribute (class B absent) followed by a
succeeding AddClass, on an empty Store. -/
theorem c3_applyPending_mixed_batch_witness :
    let opBad : Operation :=
      { type := "remove", element := "attribute", details := {},
        status := "pending", ambiguous := false, ambiguityReason := none,
        metamodelOperation := some
          { action := "removeAttribute", className := some "B",
            attributeName := some "x" } }
    let opGood : Operation :=
      { type := "add", element := "class", details := {},
        status := "pending", ambiguous := false, ambiguityReason := none,
        metamodelOperation := some { action := "addClass", className := some "C" } }
    let m : Manager :=
      { store := ⟨[]⟩, evolutionOperations := [opBad, opGood],
        ambiguities := [], pendingChanges := [0, 1] }
    applyOperation m.store (m.evolutionOperations.getD 0 default) =
      (⟨[]⟩, some "Class B not found") ∧
    applyOperation (⟨[]⟩ : Store) (m.evolutionOperations.getD 1 default) =
      (⟨[{ name := "C" }]⟩, none) ∧
    ((applyPendingChanges m).2.success = false ∧
     (applyPendingChanges m).2.appliedChanges = [1] ∧
     (applyPendingChanges m).2.failedChanges = [0] ∧
     (applyPendingChanges m).2.errors = ["Failed to apply operation: Class B not found"] ∧
     ((applyPendingChanges m).1.evolutionOperations.getD 0 default).status = "failed" ∧
     ((applyPendingChanges m).1.evolutionOperations.getD 0 default).error =
       some "Class B not found" ∧
     ((applyPendingChanges m).1.evolutionOperations.getD 1 default).status = "applied" ∧
     (applyPendingChanges m).1.store = ⟨[{ name := "C" }]⟩ ∧
     (applyPendingChanges m).1.pendingChanges = []) := by
  refine ⟨rfl, rfl, ?_⟩
  exact c3_applyPending_mixed_batch _ 0 1 ⟨[]⟩ ⟨[{ name := "C" }]⟩
    "Class B not found" (by decide) (by decide) (by decide) rfl rfl rfl rfl

/-- The ModifyReference ambiguity message for a missing new target class. -/
def missingTargetReason (dt : Details) : String :=
  let t := dt.newTargetClassName.getD ""
  s!"Target class {t} does not exist"

/-- The ModifyReference ambiguity message for a reference absent from the
class. -/
def missingReferenceReason (n c : String) : String :=
  s!"Reference {n} does not exist in class {c}"

/-- C5 counterexample: class `A` exists, reference `r` does not exist on it,
and the requested new target `Z` is also missing; the claim says the
short-circuit order records the missing-reference reason first, but the
interpreter records the missing-target reason (the retarget check is a
separate conditional that overwrites the earlier reason). -/
theorem c5_counterexample :
    let st : Store := ⟨[{ name := "A" }]⟩
    let m : Manager := { store := st }
    let mc : ModelChange :=
      { type := "modify", element := "reference",
        details := { className := some "A", name := some "r",
                     newTargetClassName := some "Z" } }
    let r := interpretModelChange m mc
    (findClassByName st "A").isSome = true ∧
    (getClassReferencesByName st "A").any (fun rf => rf.name == "r") = false ∧
    findClassByName st "Z" = none ∧
    r.2.ambiguous = true ∧
    r.2.ambiguityReason = some "Target class Z does not exist" ∧
    r.2.ambiguityReason ≠ some "Reference r does not exist in class A" := by
  exact ⟨rfl, rfl, rfl, rfl, rfl, by decide⟩

/-- C5 amended: for a ModifyReference descriptor with class and reference
names supplied and the class existing, the checks run class name →
reference name → class exists, then reference-existence and rename-conflict
(short-circuited between themselves), and then the new-target-exists check
runs *unconditionally*, overwriting any earlier reason: when a retarget to a
missing class is requested the recorded reason always cites the missing
target class (even when the reference also does not exist); only when no
failing retarget is requested does a missing reference get cited. -/
theorem c5_modifyReference_checks_amended (st : Store) (dt : Details)
    (c n : String) (cls : EClass)
    (hcn : dt.className = some c) (hc : c ≠ "")
    (hn : dt.name = some n) (hn2 : n ≠ "")
    (hfound : findClassByName st c = some cls) :
    ((strTruthy dt.newTargetClassName = true ∧
        findClassByName st (dt.newTargetClassName.getD "") = none) →
       (createModifyReferenceOperation st dt).ambiguous = true ∧
       (createModifyReferenceOperation st dt).ambiguityReason =
         some (missingTargetReason dt)) ∧
    ((strTruthy dt.newTargetClassName = false ∨
        (findClassByName st (dt.newTargetClassName.getD "")).isSome = true) →
      (getClassReferences cls).any (fun rf => rf.name == n) = false →
       (createModifyReferenceOperation st dt).ambiguous = true ∧
       (createModifyReferenceOperation st dt).ambiguityReason =
         some (missingReferenceReason n c)) := by
  have hc' : (c == "") = false := by simp [hc]
  have hn' : (n == "") = false := by simp [hn2]
  constructor
  · rintro ⟨h1, h2⟩
    have hT : (strTruthy dt.newTargetClassName &&
        (findClassByName st (dt.newTargetClassName.getD "")).isNone) = true := by
      rw [h1, h2]
      rfl
    unfold createModifyReferenceOperation
    rw [hcn, hn]
    simp [strFalsy, hc', hn', hfound, hT, missingTargetReason]
  · rintro hOr hR
    have hT : (strTruthy dt.newTargetClassName &&
        (findClassByName st (dt.newTargetClassName.getD "")).isNone) = false := by
      cases hOr with
      | inl h =>
        rw [h]
        rfl
      | inr h =>
        have hnn : (findClassByName st (dt.newTargetClassName.getD "")).isNone = false := by
          cases hfx : findClassByName st (dt.newTargetClassName.getD "") with
          | none =>
            rw [hfx] at h
            simp at h
          | some v => rfl
        rw [hnn]
        simp
    unfold createModifyReferenceOperation
    rw [hcn, hn]
    simp [strFalsy, hc', hn', hfound, hT, hR, missingReferenceReason]

/-- Witness for C5 amended: class A with no references, retarget to the
missing class Z, reference name r also missing — the missing-target reason
is recorded. -/
theorem c5_modifyReference_checks_amended_witness :
    let st : Store := ⟨[{ name := "A" }]⟩
    let dt : Details :=
      { className := some "A", name := some "r", newTargetClassName := some "Z" }
    (dt.className = some "A" ∧ dt.name = some "r" ∧
     findClassByName st "A" = some { name := "A" }) ∧
    ((strTruthy dt.newTargetClassName = true ∧
        findClassByName st (dt.newTargetClassName.getD "") = none) →
       (createModifyReferenceOperation st dt).ambiguous = true ∧
       (createModifyReferenceOperation st dt).ambiguityReason =
         some (missingTargetReason dt)) := by
  refine ⟨⟨rfl, rfl, rfl⟩, ?_⟩
  have h := c5_modifyReference_checks_amended ⟨[{ name := "A" }]⟩
    { className := some "A", name := some "r", newTargetClassName := some "Z" }
    "A" "r" { name := "A" } rfl (by decide) rfl (by decide) rfl
  exact h.1

/-- C6: round-trip on a fresh class.  Starting from an empty Store, an
AddClass for "Customer" is Pending and applies successfully; then two
AddAttribute descriptors (one with default bounds, one with lower bound 1
and upper bound −1) and one AddReference descriptor (upper bound −1) are
all Pending, apply successfully, and the Store afterwards reports exactly
those three features with the supplied bounds — the −1 "many" sentinel
preserved exactly, never normalized. -/
theorem c6_round_trip_with_many_sentinel :
    let m0 : Manager := { store := ⟨[]⟩ }
    let dCls : ModelChange :=
      { type := "add", element := "class", details := { name := some "Customer" } }
    let s1 := interpretModelChange m0 dCls
    let s1b := applyPendingChanges s1.1
    let dA1 : ModelChange :=
      { type := "add", element := "attribute",
        details := { className := some "Customer", name := some "a1" } }
    let dA2 : ModelChange :=
      { type := "add", element := "attribute",
        details := { className := some "Customer", name := some "a2",
                     lowerBound := some 1, upperBound := some (-1) } }
    let dR : ModelChange :=
      { type := "add", element := "reference",
        details := { sourceClassName := some "Customer",
                     targetClassName := some "Customer",
                     name := some "r1", upperBound := some (-1) } }
    let s2 := interpretModelChange s1b.1 dA1
    let s3 := interpretModelChange s2.1 dA2
    let s4 := interpretModelChange s3.1 dR
    let s5 := applyPendingChanges s4.1
    s1.2.ambiguous = false ∧ s1b.2.success = true ∧
    s2.2.ambiguous = false ∧ s3.2.ambiguous = false ∧ s4.2.ambiguous = false ∧
    s5.2.success = true ∧
    getClassAttributesByName s5.1.store "Customer" =
      [{ name := "a1", typeName := "EString", lowerBound := 0, upperBound := 1 },
       { name := "a2", typeName := "EString", lowerBound := 1, upperBound := -1 }] ∧
    getClassReferencesByName s5.1.store "Customer" =
      [{ name := "r1", typeName := "Customer", containment := false,
         lowerBound := 0, upperBound := -1 }] := by
  exact ⟨rfl, rfl, rfl, rfl, rfl, rfl, rfl, rfl⟩

/-- An AddAttribute change descriptor for the given class and attribute. -/
def addAttributeChange (c a : String) : ModelChange :=
  { type := "add", element := "attribute",
    details := { className := some c, name := some a } }

/-- The AddAttribute duplicate-attribute ambiguity message. -/
def duplicateAttributeReason (n c : String) : String :=
  s!"Attribute {n} already exists in class {c}"

/-- C8: interpretation-time ambiguity reflects Store state, not ledger
state.  For a manager whose Store has class c without attribute a, the
AddAttribute descriptor interprets to a Pending (non-ambiguous) operation,
and interpreting the identical descriptor again — with the first still
unapplied in the ledger — is again Pending; for any manager whose Store has
class c *with* attribute a (as after the first operation has been applied),
the same descriptor interprets to an Ambiguous operation citing the
duplicate. -/
theorem c8_ambiguity_reflects_store_not_ledger (m m2 : Manager)
    (c a : String) (cls cls2 : EClass)
    (hc : c ≠ "") (ha : a ≠ "")
    (hfind : findClassByName m.store c = some cls)
    (hno : (getClassAttributes cls).any (fun x => x.name == a) = false)
    (hfind2 : findClassByName m2.store c = some cls2)
    (hyes : (getClassAttributes cls2).any (fun x => x.name == a) = true) :
    (interpretModelChange m (addAttributeChange c a)).2.ambiguous = false ∧
    (interpretModelChange m (addAttributeChange c a)).2.status = "pending" ∧
    (interpretModelChange (interpretModelChange m (addAttributeChange c a)).1
      (addAttributeChange c a)).2.ambiguous = false ∧
    (interpretModelChange m2 (addAttributeChange c a)).2.ambiguous = true ∧
    (interpretModelChange m2 (addAttributeChange c a)).2.ambiguityReason =
      some (duplicateAttributeReason a c) := by
  have hc' : (c == "") = false := by simp [hc]
  have ha' : (a == "") = false := by simp [ha]
  have hambF : ∀ (mx : Manager), findClassByName mx.store c = some cls →
      (createAddAttributeOperation mx.store (addAttributeChange c a).details).ambiguous
        = false := by
    intro mx hfx
    unfold createAddAttributeOperation addAttributeChange
    simp [strFalsy, hc', ha', hfx, hno]
  have hdisp : ∀ (mx : Manager),
      dispatchIntent mx.store (addAttributeChange c a) =
        some (createAddAttributeOperation mx.store (addAttributeChange c a).details) :=
    fun mx => rfl
  obtain ⟨_, hamb1, _, _, _, _, hfalse1⟩ :=
    interpret_of_dispatch m (addAttributeChange c a) _ (hdisp m)
  have h1 : (interpretModelChange m (addAttributeChange c a)).2.ambiguous = false := by
    rw [hamb1]
    exact hambF m hfind
  have hst : (interpretModelChange m (addAttributeChange c a)).1.store = m.store :=
    interpretModelChange_store m (addAttributeChange c a)
  obtain ⟨_, hamb2, _, _, _, _, _⟩ :=
    interpret_of_dispatch (interpretModelChange m (addAttributeChange c a)).1
      (addAttributeChange c a) _
      (hdisp (interpretModelChange m (addAttributeChange c a)).1)
  have h2 : (interpretModelChange (interpretModelChange m (addAttributeChange c a)).1
      (addAttributeChange c a)).2.ambiguous = false := by
    rw [hamb2]
    apply hambF
    rw [hst]
    exact hfind
  have hmoT : createAddAttributeOperation m2.store (addAttributeChange c a).details =
      { action := "addAttribute", className := some c, attributeName := some a,
        attributeType := some "EString", lowerBound := some 0, upperBound := some 1,
        ambiguous := true,
        ambiguityReason := some (duplicateAttributeReason a c) } := by
    unfold createAddAttributeOperation addAttributeChange duplicateAttributeReason
    simp [strFalsy, hc', ha', hfind2, hyes, orStr, orInt]
  obtain ⟨_, hamb3, _, _, _, htrue3, _⟩ :=
    interpret_of_dispatch m2 (addAttributeChange c a) _ (hdisp m2)
  rw [hmoT] at hamb3 htrue3
  refine ⟨h1, ?_, h2, hamb3, ?_⟩
  · exact (hfalse1 (by rw [hambF m hfind])).1
  · exact (htrue3 rfl).1

/-- Witness for C8: class A without attribute x, and the post-apply Store
where A carries attribute x. -/
theorem c8_ambiguity_reflects_store_not_ledger_witness :
    let m : Manager := { store := ⟨[{ name := "A" }]⟩ }
    let m2 : Manager :=
      { store := ⟨[{ name := "A",
                     features := [Feature.attr "x" "EString" 0 1] }]⟩ }
    (findClassByName m.store "A" = some { name := "A" } ∧
     findClassByName m2.store "A" =
       some { name := "A", features := [Feature.attr "x" "EString" 0 1] }) ∧
    ((interpretModelChange m (addAttributeChange "A" "x")).2.ambiguous = false ∧
     (interpretModelChange m (addAttributeChange "A" "x")).2.status = "pending" ∧
     (interpretModelChange (interpretModelChange m (addAttributeChange "A" "x")).1
       (addAttributeChange "A" "x")).2.ambiguous = false ∧
     (interpretModelChange m2 (addAttributeChange "A" "x")).2.ambiguous = true ∧
     (interpretModelChange m2 (addAttributeChange "A" "x")).2.ambiguityReason =
       some (duplicateAttributeReason "x" "A")) := by
  refine ⟨⟨rfl, rfl⟩, ?_⟩
  exact c8_ambiguity_reflects_store_not_ledger _ _ "A" "x"
    { name := "A" } { name := "A", features := [Feature.attr "x" "EString" 0 1] }
    (by decide) (by decide) rfl rfl rfl rfl

/-- C10: resolving an ambiguous operation merges the resolution only into
the mutation intent (field-wise `Object.assign`); the audit
fields of the operation — changeType, elementKind and the verbatim details
copy — are left unchanged. -/
theorem c10_resolve_preserves_audit_fields (m : Manager) (i : Nat)
    (r : Resolution) (op : Operation)
    (hget : m.evolutionOperations.get? i = some op)
    (hamb : op.ambiguous = true) :
    ∃ m2 op2, resolveAmbiguity m i r = Except.ok (m2, op2) ∧
      op2.type = op.type ∧ op2.element = op.element ∧ op2.details = op.details ∧
      op2.metamodelOperation = op.metamodelOperation.map (fun mo => objectAssign mo r) := by
  unfold resolveAmbiguity
  rw [hget]
  simp only [hamb, Bool.true_eq_false, if_false]
  cases hmo : op.metamodelOperation with
  | none =>
    by_cases hin : i ∈ m.ambiguities
    · simp only [hin, if_true, hmo]
      exact ⟨_, _, rfl, rfl, rfl, rfl, rfl⟩
    · simp only [hin, if_false, hmo]
      exact ⟨_, _, rfl, rfl, rfl, rfl, rfl⟩
  | some mo =>
    by_cases hin : i ∈ m.ambiguities
    · simp only [hin, if_true, hmo]
      exact ⟨_, _, rfl, rfl, rfl, rfl, rfl⟩
    · simp only [hin, if_false, hmo]
      exact ⟨_, _, rfl, rfl, rfl, rfl, rfl⟩

/-- Witness for C10 at a one-operation manager holding an ambiguous
AddClass operation whose class name is resolved to "D". -/
theorem c10_resolve_preserves_audit_fields_witness :
    let op : Operation :=
      { type := "add", element := "class", details := { name := some "" },
        status := "pending", ambiguous := true,
        ambiguityReason := some "Class name is required",
        metamodelOperation := some { action := "addClass", className := some "" } }
    let m : Manager :=
      { store := ⟨[]⟩, evolutionOperations := [op],
        ambiguities := [0], pendingChanges := [] }
    let r : Resolution := { className := some (some "D") }
    m.evolutionOperations.get? 0 = some op ∧ op.ambiguous = true ∧
    (∃ m2 op2, resolveAmbiguity m 0 r = Except.ok (m2, op2) ∧
      op2.type = op.type ∧ op2.element = op.element ∧ op2.details = op.details ∧
      op2.metamodelOperation = op.metamodelOperation.map (fun mo => objectAssign mo r)) := by
  refine ⟨rfl, rfl, ?_⟩
  exact c10_resolve_preserves_audit_fields _ 0 _ _ rfl rfl
